import Mathlib

/-!
Verification of the rootcause-graph causal what-if engine against its
natural-language specification.

The frontend TypeScript sources (`frontend/src/lib/graphUtils.ts`,
`frontend/src/app/_components/InterventionPanel.tsx`, `frontend/src/lib/types.ts`)
are embedded directly.  The Python backend (propagation engine, full structural
validator with cycle detection) is not part of the source tree we were given,
so those parts are modelled from the spec and marked as such in their doc
comments.

Modelling conventions:
* JavaScript numbers (IEEE doubles) are modelled by `JSNum`: an exact rational
  together with the non-finite values `posInf`, `negInf` and `nan`.  Arithmetic
  is exact rational arithmetic except that results of magnitude at least
  `2 ^ 1024` overflow to the signed infinity, mirroring double overflow; the
  sub-ulp difference between `2 ^ 1024` and the largest double is irrelevant to
  every property proved here, as is rounding of in-range results.
* JavaScript arrays passed by reference are modelled, where mutation matters,
  by a `Heap`: a list of array contents indexed by "reference" numbers.
-/

namespace RootcauseGraph

/-! ### JavaScript number model -/

/-- Kernel-computable rational addition (the library `Rat.add` is sealed
against unfolding, which would block `decide` on concrete inputs). -/
def qAdd (a b : ℚ) : ℚ := mkRat (a.num * b.den + b.num * a.den) (a.den * b.den)

/-- Kernel-computable rational multiplication. -/
def qMul (a b : ℚ) : ℚ := mkRat (a.num * b.num) (a.den * b.den)

/-- Kernel-computable rational negation. -/
def qNeg (a : ℚ) : ℚ := Rat.neg a

/-- Kernel-computable rational absolute value. -/
def qAbs (a : ℚ) : ℚ := if a.num < 0 then Rat.neg a else a

/-- A JavaScript number: a finite (exact) rational or a non-finite value. -/
inductive JSNum where
  | fin (q : ℚ)
  | posInf
  | negInf
  | nan
deriving DecidableEq, Repr

/-- Overflow threshold modelling the upper end of the IEEE double range:
the literal value of `2 ^ 1024`. -/
def overflowBound : ℚ := mkRat (Int.ofNat 179769313486231590772930519078902473361797697894230657273430081157732675805500963132708477322407536021120113879871393357658789768814416622492847430639474124377767893424865485276302219601246094119453082952085005768838150682342462881473913110540827237163350510684586298239947245938479716304835356329624224137216) 1

/-- Clamp an exact rational into the double range, overflowing to infinity. -/
def jsNormalize (q : ℚ) : JSNum :=
  if overflowBound ≤ q then JSNum.posInf
  else if q ≤ qNeg overflowBound then JSNum.negInf
  else JSNum.fin q

/-- Negation of a JavaScript number. -/
def jsNeg : JSNum → JSNum
  | JSNum.fin q => JSNum.fin (qNeg q)
  | JSNum.posInf => JSNum.negInf
  | JSNum.negInf => JSNum.posInf
  | JSNum.nan => JSNum.nan

/-- Addition of JavaScript numbers (`Infinity + -Infinity` is `NaN`). -/
def jsAdd : JSNum → JSNum → JSNum
  | JSNum.nan, _ => JSNum.nan
  | _, JSNum.nan => JSNum.nan
  | JSNum.posInf, JSNum.negInf => JSNum.nan
  | JSNum.negInf, JSNum.posInf => JSNum.nan
  | JSNum.posInf, _ => JSNum.posInf
  | _, JSNum.posInf => JSNum.posInf
  | JSNum.negInf, _ => JSNum.negInf
  | _, JSNum.negInf => JSNum.negInf
  | JSNum.fin a, JSNum.fin b => jsNormalize (qAdd a b)

/-- Subtraction of JavaScript numbers. -/
def jsSub (a b : JSNum) : JSNum := jsAdd a (jsNeg b)

/-- Scaling a JavaScript number by an exact weight (`0 * Infinity` is `NaN`). -/
def jsScale (w : ℚ) : JSNum → JSNum
  | JSNum.fin q => jsNormalize (qMul w q)
  | JSNum.nan => JSNum.nan
  | JSNum.posInf => if w = 0 then JSNum.nan else if 0 < w then JSNum.posInf else JSNum.negInf
  | JSNum.negInf => if w = 0 then JSNum.nan else if 0 < w then JSNum.negInf else JSNum.posInf

/-- `Math.abs` on JavaScript numbers. -/
def jsAbs : JSNum → JSNum
  | JSNum.fin q => JSNum.fin (qAbs q)
  | JSNum.posInf => JSNum.posInf
  | JSNum.negInf => JSNum.posInf
  | JSNum.nan => JSNum.nan

/-- JavaScript strict `>` comparison (`NaN` compares false with everything). -/
def jsGt : JSNum → JSNum → Bool
  | JSNum.nan, _ => false
  | _, JSNum.nan => false
  | JSNum.posInf, JSNum.posInf => false
  | JSNum.posInf, _ => true
  | JSNum.negInf, _ => false
  | JSNum.fin _, JSNum.posInf => false
  | JSNum.fin _, JSNum.negInf => true
  | JSNum.fin a, JSNum.fin b => decide (b < a)

/-- JavaScript strict `<` comparison. -/
def jsLt (a b : JSNum) : Bool := jsGt b a

/-- `true` iff the value is an infinity or `NaN` (`!Number.isFinite`). -/
def nonFinite : JSNum → Bool
  | JSNum.fin _ => false
  | _ => true

/-! ### Data model (`frontend/src/lib/types.ts`) -/

/-- A dynamic value: a JavaScript number or a category label
(`base_value: number | string`). -/
inductive Value where
  | num (x : JSNum)
  | str (s : String)
deriving DecidableEq, Repr

/-- `NodeType` from `types.ts`. -/
inductive NodeType where
  | continuous
  | categorical
  | binary
deriving DecidableEq, Repr

/-- `Node` from `types.ts`. -/
structure Node where
  id : String
  name : String
  node_type : NodeType
  base_value : Value
  possible_values : Option (List String) := none
deriving DecidableEq, Repr

/-- `Edge` from `types.ts` (the weight is an exact rational in the model). -/
structure Edge where
  source_id : String
  target_id : String
  weight : ℚ
deriving DecidableEq, Repr

/-- `CausalGraph` from `types.ts`. -/
structure CausalGraph where
  id : String
  name : String
  nodes : List Node
  edges : List Edge
deriving DecidableEq, Repr

/-- `Intervention` from `types.ts` (`forced_value: number | string`). -/
structure Intervention where
  node_id : String
  forced_value : Value
deriving DecidableEq, Repr

/-- `SimulationResult` from `types.ts`. -/
structure SimulationResult where
  node_id : String
  original_value : Value
  simulated_value : Value
deriving DecidableEq, Repr

/-! ### `graphUtils.ts` embeddings -/

/-- `findNodeById` from `graphUtils.ts`. -/
def findNodeById (graph : CausalGraph) (nodeId : String) : Option Node :=
  graph.nodes.find? (fun n => n.id == nodeId)

/-- `getNodeEdges` from `graphUtils.ts`: all edges touching the node. -/
def getNodeEdges (graph : CausalGraph) (nodeId : String) : List Edge :=
  graph.edges.filter (fun e => e.source_id == nodeId || e.target_id == nodeId)

/-- `getIncomingEdges` from `graphUtils.ts`. -/
def getIncomingEdges (graph : CausalGraph) (nodeId : String) : List Edge :=
  graph.edges.filter (fun e => e.target_id == nodeId)

/-- `getOutgoingEdges` from `graphUtils.ts`. -/
def getOutgoingEdges (graph : CausalGraph) (nodeId : String) : List Edge :=
  graph.edges.filter (fun e => e.source_id == nodeId)

/-- `isSelfLoop` from `graphUtils.ts`. -/
def isSelfLoop (sourceId targetId : String) : Bool :=
  sourceId == targetId

/-- `edgeExists` from `graphUtils.ts`. -/
def edgeExists (graph : CausalGraph) (sourceId targetId : String) : Bool :=
  graph.edges.any (fun e => e.source_id == sourceId && e.target_id == targetId)

/-- `isNodeIdUnique` from `graphUtils.ts`. -/
def isNodeIdUnique (graph : CausalGraph) (nodeId : String) : Bool :=
  !(graph.nodes.any (fun n => n.id == nodeId))

/-- The error string pushed for a dangling edge source (`graphUtils.ts:81`). -/
def srcErr (id : String) : String :=
  "Edge references non-existent source node: " ++ id

/-- The error string pushed for a dangling edge target (`graphUtils.ts:84`). -/
def tgtErr (id : String) : String :=
  "Edge references non-existent target node: " ++ id

/-- The per-edge error contribution of `validateEdgeReferences`: an error for
a source id not in the node-id set, then an error for a target id not in the
node-id set. -/
def edgeRefErrs (nodeIds : List String) (e : Edge) : List String :=
  (if e.source_id ∈ nodeIds then [] else [srcErr e.source_id]) ++
  (if e.target_id ∈ nodeIds then [] else [tgtErr e.target_id])

/-- `validateEdgeReferences` from `graphUtils.ts`: for each edge, in order,
push the errors for its dangling endpoints. -/
def validateEdgeReferences (graph : CausalGraph) : List String :=
  graph.edges.flatMap (edgeRefErrs (graph.nodes.map (·.id)))

/-- `calculateDelta` from `graphUtils.ts`: `simulated - original` when both are
numbers, `null` otherwise. -/
def calculateDelta (result : SimulationResult) : Option JSNum :=
  match result.original_value, result.simulated_value with
  | Value.num o, Value.num s => some (jsSub s o)
  | _, _ => none

/-- The default threshold `0.0001` of `getChangedNodes`. -/
def defaultThreshold : JSNum := JSNum.fin (mkRat 1 10000)

/-- `getChangedNodes` from `graphUtils.ts`: keep results whose delta is
non-null and whose `Math.abs(delta)` strictly exceeds the threshold. -/
def getChangedNodes (results : List SimulationResult) (threshold : JSNum) :
    List SimulationResult :=
  results.filter (fun r =>
    match calculateDelta r with
    | some d => jsGt (jsAbs d) threshold
    | none => false)

/-- Name comparison used by `sortNodesByName` (modelling `localeCompare` as
the order on strings). -/
def nameLE (a b : Node) : Prop := a.name ≤ b.name

instance : DecidableRel nameLE := fun a b => inferInstanceAs (Decidable (a.name ≤ b.name))

instance : IsTotal Node nameLE := ⟨fun a b => le_total a.name b.name⟩

instance : IsTrans Node nameLE := ⟨fun _ _ _ h h' => le_trans h h'⟩

/-- The pure sorting applied by `sortNodesByName` (a stable sort by name). -/
def jsSortByName (nodes : List Node) : List Node :=
  List.insertionSort nameLE nodes

/-- `sortNodesByName` from `graphUtils.ts`, value level: `[...nodes].sort(...)`. -/
def sortNodesByName (nodes : List Node) : List Node :=
  jsSortByName nodes

/-- Number of dangling edge endpoints of a graph (each missing source id and
each missing target id counts once). -/
def danglingCount (graph : CausalGraph) : ℕ :=
  let nodeIds := graph.nodes.map (·.id)
  (graph.edges.map (fun e =>
    (if e.source_id ∈ nodeIds then 0 else 1) +
    (if e.target_id ∈ nodeIds then 0 else 1))).sum

/-- `needle` occurs contiguously inside `hay`. -/
def strMentions (needle hay : String) : Prop :=
  ∃ pre post, hay.data = pre ++ needle.data ++ post

/-! ### `parseFloat` model and the intervention helpers (`graphUtils.ts`) -/

/-- JavaScript whitespace recognised by `trim` and `parseFloat` (the ASCII
whitespace characters; exotic Unicode space code points are out of scope). -/
def isJsWS (c : Char) : Bool :=
  c == ' ' || c == '\t' || c == '\n' || c == '\r' || c == '\x0b' || c == '\x0c'

/-- `String.prototype.trim`. -/
def jsTrim (s : String) : String :=
  ⟨((s.data.dropWhile isJsWS).reverse.dropWhile isJsWS).reverse⟩

/-- Does the first character list start with the second? -/
def leadsWith : List Char → List Char → Bool
  | _, [] => true
  | [], _ :: _ => false
  | a :: as, b :: bs => a == b && leadsWith as bs

/-- Numeric value of a digit string. -/
def digitsToNat (ds : List Char) : ℕ :=
  ds.foldl (fun a c => 10 * a + (c.toNat - '0'.toNat)) 0

/-- Exponent suffix accepted by `parseFloat`: `e`/`E`, optional sign, digits.
When no digit follows, the exponent marker is not part of the number and the
exponent is `0` (`parseFloat("42e") = 42`). -/
def parseExp (cs : List Char) : ℤ :=
  match cs with
  | c :: t =>
    if c == 'e' || c == 'E' then
      match t with
      | '+' :: u => (digitsToNat (u.takeWhile Char.isDigit) : ℤ)
      | '-' :: u =>
        if (u.takeWhile Char.isDigit).isEmpty then 0
        else -(digitsToNat (u.takeWhile Char.isDigit) : ℤ)
      | u =>
        (digitsToNat (u.takeWhile Char.isDigit) : ℤ)
    else 0
  | [] => 0

/-- The longest decimal literal prefix of `cs` (sign already consumed):
digits, optional dot and fraction digits, optional exponent.  `none` when not
even one digit is present. -/
def parseDecimal (cs : List Char) : Option ℚ :=
  let intD := cs.takeWhile Char.isDigit
  let rest1 := cs.dropWhile Char.isDigit
  let fracD := match rest1 with
    | '.' :: t => t.takeWhile Char.isDigit
    | _ => []
  let rest2 := match rest1 with
    | '.' :: t => t.dropWhile Char.isDigit
    | _ => rest1
  if intD.isEmpty && fracD.isEmpty then none
  else
    let den := Nat.pow 10 fracD.length
    let mant : ℚ := mkRat ((digitsToNat intD * den + digitsToNat fracD : ℕ) : ℤ) den
    let e := parseExp rest2
    some (if 0 ≤ e then qMul mant (mkRat (Int.ofNat (Nat.pow 10 e.toNat)) 1)
          else qMul mant (mkRat 1 (Nat.pow 10 (-e).toNat)))

/-- ECMAScript `parseFloat`: skip leading whitespace, take an optional sign,
then either the literal `Infinity` or the longest decimal-literal prefix;
`NaN` when no prefix parses. -/
def jsParseFloat (s : String) : JSNum :=
  let cs := s.data.dropWhile isJsWS
  let neg := match cs with | '-' :: _ => true | _ => false
  let body := match cs with
    | '+' :: t => t
    | '-' :: t => t
    | _ => cs
  if leadsWith body "Infinity".data then
    if neg then JSNum.negInf else JSNum.posInf
  else
    match parseDecimal body with
    | none => JSNum.nan
    | some q => jsNormalize (if neg then qNeg q else q)

/-- `parseInterventionValue` from `graphUtils.ts`: `null` for an empty or
whitespace-only string, and for input whose `parseFloat` is `NaN`; otherwise
the `parseFloat` result. -/
def parseInterventionValue (value : String) : Option JSNum :=
  if value = "" || jsTrim value = "" then none
  else
    match jsParseFloat value with
    | JSNum.nan => none
    | x => some x

/-- `createIntervention` from `graphUtils.ts`: `null` for an empty node id or
an invalid value string, otherwise the intervention with the parsed number. -/
def createIntervention (nodeId valueStr : String) : Option Intervention :=
  if nodeId = "" then none
  else
    match parseInterventionValue valueStr with
    | none => none
    | some v => some { node_id := nodeId, forced_value := Value.num v }

/-! ### Intervention panel state (`InterventionPanel.tsx`) -/

/-- `handleAddIntervention` from `InterventionPanel.tsx`: build the
intervention; when invalid do nothing; when the node already has one, replace
it in place; otherwise append. -/
def handleAddIntervention (interventions : List Intervention)
    (selectedNodeId forcedValue : String) : List Intervention :=
  match createIntervention selectedNodeId forcedValue with
  | none => interventions
  | some newIntervention =>
    if interventions.any (fun i => i.node_id == selectedNodeId) then
      interventions.map (fun i =>
        if i.node_id == selectedNodeId then newIntervention else i)
    else
      interventions ++ [newIntervention]

/-- `handleRemoveIntervention` from `InterventionPanel.tsx`. -/
def handleRemoveIntervention (interventions : List Intervention)
    (nodeId : String) : List Intervention :=
  interventions.filter (fun i => !(i.node_id == nodeId))

/-- `handleClearAll` from `InterventionPanel.tsx` (also the `useEffect` reset
that runs on a graph switch). -/
def handleClearAll : List Intervention := []

/-- The panel invariant: no two interventions target the same node. -/
def noDupIds (interventions : List Intervention) : Prop :=
  (interventions.map (·.node_id)).Nodup

/-! ### A heap of JavaScript arrays

JavaScript arrays are mutable references.  For the frame properties we model a
heap as a list of array contents; a "reference" is an index into the heap. -/

/-- A heap of arrays with elements of type `α`. -/
abbrev Heap (α : Type) : Type := List (List α)

/-- Number of allocated arrays. -/
def Heap.size (h : Heap α) : ℕ := List.length h

/-- Read the content of the array behind reference `r`. -/
def readArr (h : Heap α) (r : ℕ) : List α := (List.get? h r).getD []

/-- Overwrite the content of the array behind reference `r` in place. -/
def writeArr (h : Heap α) (r : ℕ) (v : List α) : Heap α := List.set h r v

/-- Allocate a fresh array with content `v`; returns the new heap and the
fresh reference. -/
def allocArr (h : Heap α) (v : List α) : Heap α × ℕ := (h ++ [v], Heap.size h)

/-- `array.push(x)`: append to the array behind `r` in place. -/
def pushArr (h : Heap α) (r : ℕ) (x : α) : Heap α := writeArr h r (readArr h r ++ [x])

/-- `sortNodesByName` at the heap level, following the source line
`return [...nodes].sort((a, b) => a.name.localeCompare(b.name))`: the spread
allocates a fresh copy, `.sort` mutates that copy in place, and the copy is
returned; the input array is never written. -/
def sortNodesByNameST (h : Heap Node) (nodes : ℕ) : Heap Node × ℕ :=
  let alloc := allocArr h (readArr h nodes)
  (writeArr alloc.1 alloc.2 (jsSortByName (readArr alloc.1 alloc.2)), alloc.2)

/-- The loop body of `validateEdgeReferences` at the heap level: push an
error onto the `errors` array behind `errRef` for each dangling endpoint. -/
def vstStep (nodeIds : List String) (errRef : ℕ) (hh : Heap String) (e : Edge) :
    Heap String :=
  let hh1 := if e.source_id ∈ nodeIds then hh else pushArr hh errRef (srcErr e.source_id)
  if e.target_id ∈ nodeIds then hh1 else pushArr hh1 errRef (tgtErr e.target_id)

/-- `validateEdgeReferences` at the heap level: a fresh `errors` array is
allocated, and each dangling endpoint pushes one error string onto it; nothing
else is written. -/
def validateEdgeReferencesST (graph : CausalGraph) (h : Heap String) :
    Heap String × ℕ :=
  let alloc := allocArr h []
  (graph.edges.foldl (vstStep (graph.nodes.map (·.id)) alloc.2) alloc.1, alloc.2)

/-! ### Structural validator

`validate` lives in the backend (`graph.py`), which is not in the source tree
we were given; it is modelled from spec section 4.1. -/

/-- Modelled from the spec: the duplicate-node-id check of the backend
validator (`graph.py`, not under `src/`); one error per duplicated id. -/
def dupIdErrors (graph : CausalGraph) : List String :=
  let ids := graph.nodes.map (·.id)
  ((ids.filter (fun i => 1 < ids.count i)).dedup).map
    (fun i => "Duplicate node id: " ++ i)

/-- Modelled from the spec: the self-loop check of the backend validator
(`graph.py`, not under `src/`); one error per self-loop edge. -/
def selfLoopErrors (graph : CausalGraph) : List String :=
  (graph.edges.filter (fun e => isSelfLoop e.source_id e.target_id)).map
    (fun e => "Self-loop edge at node: " ++ e.source_id)

/-- Child adjacency: node id to list of direct successor ids. -/
def childrenMap (graph : CausalGraph) : List (String × List String) :=
  graph.nodes.map (fun n =>
    (n.id, (graph.edges.filter (fun e => e.source_id == n.id)).map (·.target_id)))

/-- Modelled from the spec: the three-color depth-first search of the backend
validator (`graph.py`, not under `src/`), on a worklist.  `gray` holds the
in-progress nodes on the current path, `black` the finished ones; reaching a
gray node is a back-edge, i.e. a cycle.  Recursion is structural on a fuel
that bounds the total number of search steps; `dfsFuel` below is generous
enough that the fuel never runs out on the graphs considered. -/
def dfsVisit (adj : List (String × List String)) :
    ℕ → List String → List String → List String → List String × Bool
  | 0, _, black, _ => (black, false)
  | _ + 1, _, black, [] => (black, false)
  | fuel + 1, gray, black, n :: rest =>
    let first :=
      if n ∈ black then (black, false)
      else if n ∈ gray then (black, true)
      else
        let r := dfsVisit adj fuel (n :: gray) black ((adj.lookup n).getD [])
        (n :: r.1, r.2)
    if first.2 then first
    else dfsVisit adj fuel gray first.1 rest

/-- Fuel that amply covers a full depth-first traversal. -/
def dfsFuel (graph : CausalGraph) : ℕ :=
  (graph.nodes.length + 1) * (graph.nodes.length + graph.edges.length + 1)

/-- Modelled from the spec: cycle detection of the backend validator
(`graph.py`, not under `src/`): run the three-color depth-first search from
every node. -/
def hasCycle (graph : CausalGraph) : Bool :=
  let adj := childrenMap graph
  (graph.nodes.foldl (fun acc n =>
    if acc.2 then acc else dfsVisit adj (dfsFuel graph) [] acc.1 [n.id]) ([], false)).2

/-- The validator's report: structural errors plus the cycle fact, exposed
independently (spec section 4.1). -/
structure ValidationReport where
  errors : List String
  has_cycle : Bool
deriving DecidableEq, Repr

/-- Modelled from the spec: `validate(graph)` of the backend (`graph.py`, not
under `src/`): duplicate ids, dangling edge references, self-loops, and the
cycle fact; no check short-circuits the others. -/
def validateGraph (graph : CausalGraph) : ValidationReport :=
  { errors := dupIdErrors graph ++ validateEdgeReferences graph ++ selfLoopErrors graph,
    has_cycle := hasCycle graph }

/-! ### Propagation engine

The simulator lives in the backend (`simulator.py`), which is not in the
source tree we were given; it is modelled from spec sections 4.2 and 4.3:
relaxation of `delta(n) = Σ weight(e) * delta(source(e))` from `d = f`, with
intervened deltas held fixed, an epsilon convergence test, a hard iteration
cap of 1000, and explicit flagging of non-finite values. -/

/-- The hard iteration cap (spec: "e.g. 1000 iterations"). -/
def maxIterations : ℕ := 1000

/-- The convergence threshold (spec: "epsilon, e.g. 1e-6"). -/
def epsilonJS : JSNum := JSNum.fin (mkRat 1 1000000)

/-- Is a node numeric (its base value is a number, so it participates in
weighted-sum propagation)? -/
def isNumericNode (n : Node) : Bool :=
  match n.base_value with
  | Value.num _ => true
  | Value.str _ => false

/-- Modelled from the spec: the `AdjacencyIndex` (spec section 4.2, backend
`simulator.py` not under `src/`): node id to the `(parent_id, weight)` pairs
of its incoming edges, built once per simulation call. -/
def buildParentMap (graph : CausalGraph) : List (String × List (String × ℚ)) :=
  graph.nodes.map (fun n =>
    (n.id, (graph.edges.filter (fun e => e.target_id == n.id)).map
      (fun e => (e.source_id, e.weight))))

/-- The forced value an intervention list assigns to a node id, if any. -/
def ivLookup (interventions : List Intervention) (nid : String) : Option Value :=
  (interventions.find? (fun i => i.node_id == nid)).map (·.forced_value)

/-- Modelled from the spec: the forcing vector `f` (backend `simulator.py`
not under `src/`): an intervened numeric node's delta is fixed at
`forced_value - base_value` for the whole run; everyone else starts at 0. -/
def initDelta (interventions : List Intervention) (n : Node) : JSNum :=
  match ivLookup interventions n.id, n.base_value with
  | some (Value.num v), Value.num b => jsSub v b
  | _, _ => JSNum.fin 0

/-- The per-node delta assignment, keyed in node order. -/
abbrev DeltaMap : Type := List (String × JSNum)

/-- Engine state: the current deltas and the node ids flagged as diverged. -/
structure SimState where
  deltas : DeltaMap
  diverged : List String

/-- Flag every node id whose delta is non-finite, keeping earlier flags. -/
def flagDiverged (deltas : DeltaMap) (old : List String) : List String :=
  old ++ (((deltas.filter (fun p => nonFinite p.2)).map (·.1)).filter (fun i => i ∉ old))

/-- Modelled from the spec: one relaxation sweep (backend `simulator.py` not
under `src/`): every non-intervened numeric node's delta is recomputed as the
weighted sum of its parents' current deltas (label nodes neither emit nor
receive contributions); intervened deltas are never recomputed. -/
def stepDeltas (graph : CausalGraph) (ivIds : List String)
    (parents : List (String × List (String × ℚ))) (numericIds : List String)
    (deltas : DeltaMap) : DeltaMap :=
  graph.nodes.map (fun n =>
    if n.id ∈ ivIds then
      (n.id, (deltas.lookup n.id).getD (JSNum.fin 0))
    else if isNumericNode n then
      (n.id, ((parents.lookup n.id).getD []).foldl (fun acc p =>
        if p.1 ∈ numericIds then
          jsAdd acc (jsScale p.2 ((deltas.lookup p.1).getD (JSNum.fin 0)))
        else acc) (JSNum.fin 0))
    else (n.id, JSNum.fin 0))

/-- One engine step: sweep the deltas, then flag new non-finite ones. -/
def stepState (graph : CausalGraph) (ivIds : List String)
    (parents : List (String × List (String × ℚ))) (numericIds : List String)
    (st : SimState) : SimState :=
  let d := stepDeltas graph ivIds parents numericIds st.deltas
  { deltas := d, diverged := flagDiverged d st.diverged }

/-- The convergence test: every delta moved by less than epsilon (a `NaN`
move compares false, so a `NaN` never counts as converged). -/
def convergedB (old new : DeltaMap) : Bool :=
  new.all (fun p =>
    jsLt (jsAbs (jsSub p.2 ((old.lookup p.1).getD (JSNum.fin 0)))) epsilonJS)

/-- Modelled from the spec: the relaxation loop (backend `simulator.py` not
under `src/`): iterate until the sweep moves every delta by less than epsilon
or the fuel (the iteration cap) runs out; returns the final state and the
number of sweeps performed. -/
def simLoop (graph : CausalGraph) (ivIds : List String)
    (parents : List (String × List (String × ℚ))) (numericIds : List String) :
    ℕ → SimState → SimState × ℕ
  | 0, st => (st, 0)
  | fuel + 1, st =>
    let st' := stepState graph ivIds parents numericIds st
    if convergedB st.deltas st'.deltas then (st', 1)
    else
      ((simLoop graph ivIds parents numericIds fuel st').1,
       (simLoop graph ivIds parents numericIds fuel st').2 + 1)

/-- The engine's output: one result per node, the flagged node ids, the
number of iterations used, and the final deltas. -/
structure SimOutput where
  results : List SimulationResult
  diverged : List String
  iterations : ℕ
  finalDeltas : DeltaMap

/-- Modelled from the spec: `simulate(graph, interventions)` (backend
`simulator.py` not under `src/`): build the adjacency once, start from the
forcing vector, relax under the iteration cap, and emit one result per node —
`base + delta` for numeric nodes, label pass-through (forced label when
intervened) for label nodes — together with the diverged-node flags. -/
def simulate (graph : CausalGraph) (interventions : List Intervention) : SimOutput :=
  let parents := buildParentMap graph
  let numericIds := (graph.nodes.filter isNumericNode).map (·.id)
  let ivIds := interventions.map (·.node_id)
  let d0 : DeltaMap := graph.nodes.map (fun n => (n.id, initDelta interventions n))
  let st0 : SimState := { deltas := d0, diverged := flagDiverged d0 [] }
  let fin := simLoop graph ivIds parents numericIds maxIterations st0
  let results := graph.nodes.map (fun n =>
    match n.base_value with
    | Value.num b =>
      { node_id := n.id, original_value := Value.num b,
        simulated_value :=
          Value.num (jsAdd b (((fin.1).deltas.lookup n.id).getD (JSNum.fin 0))) }
    | Value.str l =>
      { node_id := n.id, original_value := Value.str l,
        simulated_value :=
          match ivLookup interventions n.id with
          | some (Value.str l') => Value.str l'
          | _ => Value.str l })
  { results := results, diverged := (fin.1).diverged, iterations := fin.2,
    finalDeltas := (fin.1).deltas }

/-- A directed cycle given by indices into `graph.edges`: consecutive edges
chain target-to-source and the last edge closes back to `s`. -/
def closesAt (graph : CausalGraph) (s : String) : List ℕ → Bool
  | [] => false
  | [i] =>
    match List.get? graph.edges i with
    | some e => e.target_id == s
    | none => false
  | i :: j :: rest =>
    match List.get? graph.edges i, List.get? graph.edges j with
    | some e, some e' => e.target_id == e'.source_id && closesAt graph s (j :: rest)
    | _, _ => false

/-- Is the index list a (nonempty, in-bounds) directed cycle of the graph? -/
def isCycleIn (graph : CausalGraph) (is : List ℕ) : Bool :=
  match is with
  | [] => false
  | i :: _ =>
    match List.get? graph.edges i with
    | some e => closesAt graph e.source_id is
    | none => false

/-- The product of the weights along a list of edge indices. -/
def cycleWeightProd (graph : CausalGraph) (is : List ℕ) : ℚ :=
  (is.map (fun i => ((List.get? graph.edges i).map (·.weight)).getD 1)).foldl
    qMul (mkRat 1 1)

/-- The graph contains a directed cycle whose weight product has magnitude at
least 1 (the diverging-cycle hypothesis of the termination claim). -/
def HasDivergentCycle (graph : CausalGraph) : Prop :=
  ∃ is : List ℕ, isCycleIn graph is = true ∧ 1 ≤ qAbs (cycleWeightProd graph is)

/-! ### Concrete fixtures -/

/-- The `mockGraph` fixture of `graphUtils.test.ts`. -/
def embMockGraph : CausalGraph :=
  { id := "test-graph", name := "Test Graph",
    nodes := [
      { id := "node-1", name := "Node One", node_type := NodeType.continuous,
        base_value := Value.num (JSNum.fin (mkRat 100 1)) },
      { id := "node-2", name := "Node Two", node_type := NodeType.categorical,
        base_value := Value.str "A" },
      { id := "node-3", name := "Node Three", node_type := NodeType.binary,
        base_value := Value.num (JSNum.fin (mkRat 1 1)) },
      { id := "node-4", name := "Another Node", node_type := NodeType.continuous,
        base_value := Value.num (JSNum.fin (mkRat 50 1)) }],
    edges := [
      { source_id := "node-1", target_id := "node-2", weight := mkRat 5 10 },
      { source_id := "node-1", target_id := "node-3", weight := mkRat (-3) 10 },
      { source_id := "node-2", target_id := "node-4", weight := mkRat 1 1 }] }

/-- `mockGraph` with the cycle-closing edge `node-4 → node-1` added. -/
def embMockGraphCyc : CausalGraph :=
  { embMockGraph with
    edges := embMockGraph.edges ++
      [{ source_id := "node-4", target_id := "node-1", weight := mkRat 1 1 }] }

/-- The dangling-source edge of the referential-integrity scenario. -/
def eMissing : Edge := { source_id := "missing", target_id := "node-1", weight := mkRat 1 1 }

/-- A graph with one node and one edge whose source id is `"missing"`. -/
def gMissing : CausalGraph :=
  { id := "g-missing", name := "Missing Source",
    nodes := [{ id := "node-1", name := "Node One", node_type := NodeType.continuous,
                base_value := Value.num (JSNum.fin (mkRat 100 1)) }],
    edges := [eMissing] }

/-- A 2-node cycle `A → B → A` with weight product 2 (magnitude ≥ 1). -/
def gCyc : CausalGraph :=
  { id := "g-cyc", name := "Divergent Cycle",
    nodes := [
      { id := "A", name := "A", node_type := NodeType.continuous,
        base_value := Value.num (JSNum.fin (mkRat 10 1)) },
      { id := "B", name := "B", node_type := NodeType.continuous,
        base_value := Value.num (JSNum.fin (mkRat 20 1)) }],
    edges := [
      { source_id := "A", target_id := "B", weight := mkRat 2 1 },
      { source_id := "B", target_id := "A", weight := mkRat 1 1 }] }

/-- An intervention set for the cycle fixture. -/
def ivsCyc : List Intervention := [{ node_id := "A", forced_value := Value.num (JSNum.fin (mkRat 11 1)) }]

/-- The spec-side description of the changed-node filter, written from the
claim's words (results, in input order, whose values are both numeric with
absolute difference strictly above the threshold), for comparison with the
source-derived `getChangedNodes`. -/
def changedNodesSpec (results : List SimulationResult) (threshold : JSNum) :
    List SimulationResult :=
  results.filter (fun r =>
    match r.original_value, r.simulated_value with
    | Value.num o, Value.num s => jsGt (jsAbs (jsSub s o)) threshold
    | _, _ => false)

/-! ### Helper lemmas -/

/-- An edge contributes no reference errors iff both endpoints resolve. -/
theorem edgeRefErrs_eq_nil_iff (nodeIds : List String) (e : Edge) :
    edgeRefErrs nodeIds e = [] ↔ e.source_id ∈ nodeIds ∧ e.target_id ∈ nodeIds := by
  by_cases hs : e.source_id ∈ nodeIds <;> by_cases ht : e.target_id ∈ nodeIds <;>
    simp [edgeRefErrs, hs, ht]

/-- An edge contributes one error per dangling endpoint. -/
theorem edgeRefErrs_length (nodeIds : List String) (e : Edge) :
    (edgeRefErrs nodeIds e).length =
      (if e.source_id ∈ nodeIds then 0 else 1) +
      (if e.target_id ∈ nodeIds then 0 else 1) := by
  by_cases hs : e.source_id ∈ nodeIds <;> by_cases ht : e.target_id ∈ nodeIds <;>
    simp [edgeRefErrs, hs, ht]

/-- Total error count of the flat map is the dangling-endpoint count. -/
theorem flatMap_edgeRefErrs_length (nodeIds : List String) :
    ∀ es : List Edge, (es.flatMap (edgeRefErrs nodeIds)).length =
      (es.map (fun e =>
        (if e.source_id ∈ nodeIds then 0 else 1) +
        (if e.target_id ∈ nodeIds then 0 else 1))).sum
  | [] => rfl
  | e :: es => by
    simp only [List.flatMap_cons, List.length_append, List.map_cons, List.sum_cons,
      edgeRefErrs_length, flatMap_edgeRefErrs_length nodeIds es]

/-! ### Claims -/

/-- C2: `validateEdgeReferences` returns `[]` iff every edge endpoint resolves
to a node id of the graph; each dangling endpoint contributes exactly one
error string, and that string contains the offending id; in particular the
one-edge graph whose source id is `"missing"` yields exactly one error
containing `"missing"`. -/
theorem c2_validateEdgeReferences_correct :
    (∀ g : CausalGraph, validateEdgeReferences g = [] ↔
      ∀ e ∈ g.edges, e.source_id ∈ g.nodes.map (·.id) ∧ e.target_id ∈ g.nodes.map (·.id))
    ∧ (∀ g : CausalGraph, (validateEdgeReferences g).length = danglingCount g)
    ∧ (∀ (g : CausalGraph) (e : Edge), e ∈ g.edges → e.source_id ∉ g.nodes.map (·.id) →
        srcErr e.source_id ∈ validateEdgeReferences g ∧ strMentions e.source_id (srcErr e.source_id))
    ∧ (∀ (g : CausalGraph) (e : Edge), e ∈ g.edges → e.target_id ∉ g.nodes.map (·.id) →
        tgtErr e.target_id ∈ validateEdgeReferences g ∧ strMentions e.target_id (tgtErr e.target_id))
    ∧ (validateEdgeReferences gMissing = [srcErr "missing"]
        ∧ strMentions "missing" (srcErr "missing")) := by
  refine ⟨?_, ?_, ?_, ?_, ?_, ?_⟩
  · intro g
    simp only [validateEdgeReferences, List.flatMap_eq_nil_iff]
    exact ⟨fun h e he => (edgeRefErrs_eq_nil_iff _ e).1 (h e he),
           fun h e he => (edgeRefErrs_eq_nil_iff _ e).2 (h e he)⟩
  · intro g
    simp only [validateEdgeReferences, danglingCount]
    exact flatMap_edgeRefErrs_length _ g.edges
  · intro g e he hs
    refine ⟨List.mem_flatMap.2 ⟨e, he, ?_⟩, ?_⟩
    · simp [edgeRefErrs, hs]
    · exact ⟨"Edge references non-existent source node: ".data, [],
        by simp [srcErr, String.data_append]⟩
  · intro g e he ht
    refine ⟨List.mem_flatMap.2 ⟨e, he, ?_⟩, ?_⟩
    · by_cases hs : e.source_id ∈ g.nodes.map (·.id) <;> simp [edgeRefErrs, hs, ht]
    · exact ⟨"Edge references non-existent target node: ".data, [],
        by simp [tgtErr, String.data_append]⟩
  · decide
  · exact ⟨"Edge references non-existent source node: ".data, [], by decide⟩

/-- C2 witness: the generic parts applied to the concrete `gMissing` fixture. -/
theorem c2_witness :
    (eMissing ∈ gMissing.edges ∧ eMissing.source_id ∉ gMissing.nodes.map (·.id))
    ∧ (srcErr "missing" ∈ validateEdgeReferences gMissing
        ∧ strMentions "missing" (srcErr "missing")) :=
  ⟨⟨by decide, by decide⟩,
    c2_validateEdgeReferences_correct.2.2.1 gMissing eMissing (by decide) (by decide)⟩

/-- C3: `isSelfLoop` is true exactly on equal endpoints, and the structural
validator reports an error entry for every self-loop edge (never dropping
it). -/
theorem c3_selfLoop_reported :
    (∀ sourceId targetId : String, isSelfLoop sourceId targetId = true ↔ sourceId = targetId)
    ∧ (∀ (g : CausalGraph) (e : Edge), e ∈ g.edges →
        isSelfLoop e.source_id e.target_id = true →
        ("Self-loop edge at node: " ++ e.source_id) ∈ (validateGraph g).errors) := by
  constructor
  · intro s t; simp [isSelfLoop]
  · intro g e he hloop
    have hmem : ("Self-loop edge at node: " ++ e.source_id) ∈ selfLoopErrors g :=
      List.mem_map.2 ⟨e, List.mem_filter.2 ⟨he, hloop⟩, rfl⟩
    simp only [validateGraph]
    exact List.mem_append.2 (Or.inr hmem)

/-- C3 witness: a concrete self-loop edge is reported by the validator. -/
theorem c3_witness :
    ("Self-loop edge at node: " ++ "A") ∈ (validateGraph
      { id := "g", name := "g",
        nodes := [{ id := "A", name := "A", node_type := NodeType.continuous,
                    base_value := Value.num (JSNum.fin (mkRat 1 1)) }],
        edges := [{ source_id := "A", target_id := "A", weight := mkRat 1 1 }] }).errors :=
  c3_selfLoop_reported.2 _ { source_id := "A", target_id := "A", weight := mkRat 1 1 }
    (by decide) (by decide)

/-- C5: the 4-node `mockGraph` (edges 1→2, 1→3, 2→4) passes structural
validation with no errors and no cycle; adding the edge 4→1 makes cycle
detection fire. -/
theorem c5_mockGraph_validation :
    validateEdgeReferences embMockGraph = []
    ∧ (validateGraph embMockGraph).errors = []
    ∧ (validateGraph embMockGraph).has_cycle = false
    ∧ (validateGraph embMockGraphCyc).has_cycle = true := by
  refine ⟨by decide, by decide, by decide, by decide⟩

/-- C6: `calculateDelta` returns exactly `simulated - original` when both
values are numbers and `null` whenever either value is a label (no implicit
coercion of labels to numbers). -/
theorem c6_calculateDelta_typed :
    ∀ r : SimulationResult,
      (∀ o s, r.original_value = Value.num o → r.simulated_value = Value.num s →
        calculateDelta r = some (jsSub s o))
      ∧ (∀ l, r.original_value = Value.str l → calculateDelta r = none)
      ∧ (∀ l, r.simulated_value = Value.str l → calculateDelta r = none) := by
  intro r
  refine ⟨?_, ?_, ?_⟩
  · intro o s ho hs; simp [calculateDelta, ho, hs]
  · intro l hl; cases hsim : r.simulated_value <;> simp [calculateDelta, hl, hsim]
  · intro l hl; cases horig : r.original_value <;> simp [calculateDelta, horig, hl]

/-- C6 witness: the numeric and label cases at concrete results. -/
theorem c6_witness :
    calculateDelta
        ⟨"node-1", Value.num (JSNum.fin (mkRat 100 1)), Value.num (JSNum.fin (mkRat 150 1))⟩
      = some (jsSub (JSNum.fin (mkRat 150 1)) (JSNum.fin (mkRat 100 1)))
    ∧ calculateDelta ⟨"node-1", Value.str "A", Value.str "B"⟩ = none :=
  ⟨(c6_calculateDelta_typed _).1 _ _ rfl rfl, (c6_calculateDelta_typed _).2.1 "A" rfl⟩

/-- C10: `getChangedNodes` keeps exactly the results, in input order, whose
values are both numeric with `Math.abs(simulated - original)` strictly above
the threshold; a result carrying labels is never kept, even when the labels
differ. -/
theorem c10_getChangedNodes_filter :
    (∀ (rs : List SimulationResult) (t : JSNum),
      getChangedNodes rs t = changedNodesSpec rs t)
    ∧ (∀ (rs : List SimulationResult) (t : JSNum) (r : SimulationResult),
        r ∈ getChangedNodes rs t →
        ∃ o s, r.original_value = Value.num o ∧ r.simulated_value = Value.num s
          ∧ jsGt (jsAbs (jsSub s o)) t = true)
    ∧ (∀ (rs : List SimulationResult) (t : JSNum) (r : SimulationResult),
        (∃ l, r.original_value = Value.str l) ∨ (∃ l, r.simulated_value = Value.str l) →
        r ∉ getChangedNodes rs t)
    ∧ getChangedNodes [⟨"n", Value.str "A", Value.str "B"⟩] defaultThreshold = [] := by
  have hpred : ∀ (t : JSNum) (r : SimulationResult),
      (match calculateDelta r with
        | some d => jsGt (jsAbs d) t
        | none => false) =
      (match r.original_value, r.simulated_value with
        | Value.num o, Value.num s => jsGt (jsAbs (jsSub s o)) t
        | _, _ => false) := by
    intro t r
    cases horig : r.original_value <;> cases hsim : r.simulated_value <;>
      simp [calculateDelta, horig, hsim]
  refine ⟨?_, ?_, ?_, by decide⟩
  · intro rs t
    unfold getChangedNodes changedNodesSpec
    exact List.filter_congr (fun r _ => hpred t r)
  · intro rs t r hr
    have := (List.mem_filter.1 hr).2
    rw [hpred t r] at this
    cases horig : r.original_value with
    | str l => rw [horig] at this; simp at this
    | num o =>
      cases hsim : r.simulated_value with
      | str l => rw [horig, hsim] at this; simp at this
      | num s => rw [horig, hsim] at this; exact ⟨o, s, rfl, rfl, this⟩
  · intro rs t r hlab hr
    have := (List.mem_filter.1 hr).2
    rw [hpred t r] at this
    rcases hlab with ⟨l, hl⟩ | ⟨l, hl⟩
    · rw [hl] at this; simp at this
    · cases horig : r.original_value <;> rw [horig, hl] at this <;> simp at this

/-- C10 witness: the characterisation applied at a concrete changed result. -/
theorem c10_witness :
    (⟨"n", Value.num (JSNum.fin (mkRat 0 1)), Value.num (JSNum.fin (mkRat 1 1))⟩
        : SimulationResult) ∈
      getChangedNodes ([⟨"n", Value.num (JSNum.fin (mkRat 0 1)),
        Value.num (JSNum.fin (mkRat 1 1))⟩] : List SimulationResult) defaultThreshold
    ∧ ∃ o s, (⟨"n", Value.num (JSNum.fin (mkRat 0 1)), Value.num (JSNum.fin (mkRat 1 1))⟩
          : SimulationResult).original_value = Value.num o
      ∧ (⟨"n", Value.num (JSNum.fin (mkRat 0 1)), Value.num (JSNum.fin (mkRat 1 1))⟩
          : SimulationResult).simulated_value = Value.num s
      ∧ jsGt (jsAbs (jsSub s o)) defaultThreshold = true :=
  ⟨by decide,
   c10_getChangedNodes_filter.2.1
     [⟨"n", Value.num (JSNum.fin (mkRat 0 1)), Value.num (JSNum.fin (mkRat 1 1))⟩]
     defaultThreshold
     ⟨"n", Value.num (JSNum.fin (mkRat 0 1)), Value.num (JSNum.fin (mkRat 1 1))⟩
     (by decide)⟩

/-- C8: `parseInterventionValue` is `null` exactly on empty, whitespace-only,
or `NaN`-parsing input; on every other input it returns the `parseFloat`
result, so `"Infinity"` and `"-Infinity"` yield non-finite numbers, `"42abc"`
yields 42, and `createIntervention` can construct a non-finite forced value. -/
theorem c8_parseInterventionValue_parseFloat :
    (∀ v : String, parseInterventionValue v = none ↔
      (v = "" ∨ jsTrim v = "" ∨ jsParseFloat v = JSNum.nan))
    ∧ (∀ v : String, v ≠ "" → jsTrim v ≠ "" → jsParseFloat v ≠ JSNum.nan →
        parseInterventionValue v = some (jsParseFloat v))
    ∧ parseInterventionValue "Infinity" = some JSNum.posInf
    ∧ parseInterventionValue "-Infinity" = some JSNum.negInf
    ∧ parseInterventionValue "42abc" = some (JSNum.fin (mkRat 42 1))
    ∧ createIntervention "node-1" "Infinity" =
        some { node_id := "node-1", forced_value := Value.num JSNum.posInf }
    ∧ nonFinite JSNum.posInf = true := by
  refine ⟨?_, ?_, by decide, by decide, by decide, by decide, by decide⟩
  · intro v
    by_cases hv : v = ""
    · simp [parseInterventionValue, hv]
    · by_cases ht : jsTrim v = ""
      · simp [parseInterventionValue, hv, ht]
      · cases hp : jsParseFloat v <;> simp [parseInterventionValue, hv, ht, hp]
  · intro v hv ht hp
    cases hpf : jsParseFloat v <;>
      simp_all [parseInterventionValue, hv, ht, hpf]

/-- C8 witness: the non-null branch applied at `"42abc"`. -/
theorem c8_witness :
    ("42abc" : String) ≠ "" ∧ jsTrim "42abc" ≠ "" ∧ jsParseFloat "42abc" ≠ JSNum.nan
    ∧ parseInterventionValue "42abc" = some (jsParseFloat "42abc") :=
  ⟨by decide, by decide, by decide,
    c8_parseInterventionValue_parseFloat.2.1 "42abc" (by decide) (by decide) (by decide)⟩

/-- C4 counterexample: constructing an intervention for a categorical label
fails on the code: `createIntervention("node-1", "High")` is `null`, not an
intervention carrying the label. -/
theorem c4_counterexample : createIntervention "node-1" "High" = none := by decide

/-- C4 (amended): `createIntervention` validates numerically only: whenever it
succeeds, the node id is non-empty and the forced value is a number (never a
label); for a label string such as `"High"` it returns `null` for every node
id, so a categorical label cannot be forced through `createIntervention`. -/
theorem c4_createIntervention_numeric_only :
    (∀ (nodeId valueStr : String) (iv : Intervention),
      createIntervention nodeId valueStr = some iv →
        nodeId ≠ "" ∧ iv.node_id = nodeId ∧ ∃ x, iv.forced_value = Value.num x)
    ∧ (∀ nodeId : String, createIntervention nodeId "High" = none) := by
  constructor
  · intro nodeId valueStr iv h
    unfold createIntervention at h
    by_cases hn : nodeId = ""
    · rw [if_pos hn] at h; cases h
    · rw [if_neg hn] at h
      cases hp : parseInterventionValue valueStr with
      | none => rw [hp] at h; cases h
      | some x =>
        rw [hp] at h
        cases h
        exact ⟨hn, rfl, x, rfl⟩
  · intro nodeId
    unfold createIntervention
    have hp : parseInterventionValue "High" = none := by decide
    rw [hp]
    split <;> rfl

/-- C4 witness: the amended statement applied at a numeric value string. -/
theorem c4_witness :
    ("node-1" : String) ≠ ""
    ∧ ((⟨"node-1", Value.num (JSNum.fin (mkRat 42 1))⟩ : Intervention)).node_id = "node-1"
    ∧ ∃ x, ((⟨"node-1", Value.num (JSNum.fin (mkRat 42 1))⟩
        : Intervention)).forced_value = Value.num x :=
  c4_createIntervention_numeric_only.1 "node-1" "42" _ (by decide)

/-- A successfully created intervention carries the requested node id. -/
theorem createIntervention_node_id_eq (nodeId valueStr : String) (iv : Intervention)
    (h : createIntervention nodeId valueStr = some iv) : iv.node_id = nodeId := by
  unfold createIntervention at h
  by_cases hn : nodeId = ""
  · rw [if_pos hn] at h; cases h
  · rw [if_neg hn] at h
    cases hp : parseInterventionValue valueStr with
    | none => rw [hp] at h; cases h
    | some x => rw [hp] at h; cases h; rfl

/-- C9: the intervention panel never holds two interventions for the same
node: adding for an already-intervened node replaces in place (length
unchanged), adding for a new node appends one entry, and the no-duplicate
invariant is preserved by add, remove, and clear-all (the clear also models
the reset on a graph switch). -/
theorem c9_panel_no_duplicate_node_ids :
    ∀ (ivs : List Intervention) (sel v nid : String),
      noDupIds ivs →
      noDupIds (handleAddIntervention ivs sel v)
      ∧ ((∃ i ∈ ivs, i.node_id = sel) →
          (handleAddIntervention ivs sel v).length = ivs.length)
      ∧ ((¬ ∃ i ∈ ivs, i.node_id = sel) → ∀ iv, createIntervention sel v = some iv →
          (handleAddIntervention ivs sel v).length = ivs.length + 1)
      ∧ noDupIds (handleRemoveIntervention ivs nid)
      ∧ noDupIds handleClearAll := by
  intro ivs sel v nid hnd
  have hremove : noDupIds (handleRemoveIntervention ivs nid) := by
    unfold noDupIds handleRemoveIntervention
    exact List.Nodup.sublist ((List.filter_sublist ivs).map (·.node_id)) hnd
  have hclear : noDupIds handleClearAll := by
    simp [noDupIds, handleClearAll]
  cases hco : createIntervention sel v with
  | none =>
    refine ⟨?_, ?_, ?_, hremove, hclear⟩
    · simpa [handleAddIntervention, hco] using hnd
    · intro _; simp [handleAddIntervention, hco]
    · intro _ iv hiv; simp [hco] at hiv
  | some iv =>
    have hid : iv.node_id = sel := createIntervention_node_id_eq _ _ _ hco
    by_cases hany : ivs.any (fun i => i.node_id == sel) = true
    · have hids : (ivs.map (fun i => if i.node_id == sel then iv else i)).map (·.node_id)
          = ivs.map (·.node_id) := by
        rw [List.map_map]
        refine List.map_congr_left ?_
        intro a _
        by_cases hb : a.node_id = sel
        · simp [Function.comp, hb, hid]
        · simp [Function.comp, hb]
      refine ⟨?_, ?_, ?_, hremove, hclear⟩
      · unfold noDupIds handleAddIntervention
        rw [hco]
        simp only [hany, if_true]
        rw [hids]; exact hnd
      · intro _
        unfold handleAddIntervention
        rw [hco]
        simp [hany]
      · intro hno _ _
        rcases List.any_eq_true.1 hany with ⟨i, hi, hbeq⟩
        exact absurd ⟨i, hi, by simpa using hbeq⟩ hno
    · refine ⟨?_, ?_, ?_, hremove, hclear⟩
      · unfold noDupIds handleAddIntervention
        rw [hco]
        simp only [hany, if_false, Bool.false_eq_true]
        rw [List.map_append]
        refine List.nodup_append.2 ⟨hnd, by simp, ?_⟩
        intro y hy hysel
        simp only [List.map_cons, List.map_nil, List.mem_singleton] at hysel
        rcases List.mem_map.1 hy with ⟨i, hi, hiy⟩
        exact hany (List.any_eq_true.2 ⟨i, hi, by simp [hiy, hysel, hid]⟩)
      · intro hex
        rcases hex with ⟨i, hi, hisel⟩
        exact absurd (List.any_eq_true.2 ⟨i, hi, by simp [hisel]⟩) hany
      · intro _ iv' hiv'
        unfold handleAddIntervention
        rw [hco]
        simp [hany]
  
/-- C9 witness: replacing at an existing node id keeps the list length. -/
theorem c9_witness :
    noDupIds [(⟨"a", Value.num (JSNum.fin (mkRat 1 1))⟩ : Intervention)]
    ∧ (noDupIds (handleAddIntervention [⟨"a", Value.num (JSNum.fin (mkRat 1 1))⟩] "a" "2")
      ∧ ((∃ i ∈ [(⟨"a", Value.num (JSNum.fin (mkRat 1 1))⟩ : Intervention)], i.node_id = "a") →
          (handleAddIntervention [⟨"a", Value.num (JSNum.fin (mkRat 1 1))⟩] "a" "2").length
            = [(⟨"a", Value.num (JSNum.fin (mkRat 1 1))⟩ : Intervention)].length)
      ∧ ((¬ ∃ i ∈ [(⟨"a", Value.num (JSNum.fin (mkRat 1 1))⟩ : Intervention)], i.node_id = "a") →
          ∀ iv, createIntervention "a" "2" = some iv →
          (handleAddIntervention [⟨"a", Value.num (JSNum.fin (mkRat 1 1))⟩] "a" "2").length
            = [(⟨"a", Value.num (JSNum.fin (mkRat 1 1))⟩ : Intervention)].length + 1)
      ∧ noDupIds (handleRemoveIntervention [⟨"a", Value.num (JSNum.fin (mkRat 1 1))⟩] "a")
      ∧ noDupIds handleClearAll) :=
  have h : noDupIds [(⟨"a", Value.num (JSNum.fin (mkRat 1 1))⟩ : Intervention)] := by
    unfold noDupIds; decide
  ⟨h, c9_panel_no_duplicate_node_ids [⟨"a", Value.num (JSNum.fin (mkRat 1 1))⟩] "a" "2" "a" h⟩

/-! ### Heap lemmas -/

/-- Reading below the old length is unaffected by an allocation. -/
theorem readArr_append_lt (h : Heap α) (v : List α) (r : ℕ) (hr : r < h.length) :
    readArr (h ++ [v]) r = readArr h r := by
  unfold readArr
  rw [List.get?_append hr]

/-- Reading the freshly allocated reference yields the allocated content. -/
theorem readArr_append_self (h : Heap α) (v : List α) :
    readArr (h ++ [v]) h.length = v := by
  unfold readArr
  rw [List.get?_concat_length]
  rfl

/-- Writing one array leaves every other array unchanged. -/
theorem readArr_write_ne (h : Heap α) (r q : ℕ) (v : List α) (hne : r ≠ q) :
    readArr (writeArr h r v) q = readArr h q := by
  unfold readArr writeArr
  rw [List.get?_set_ne _ _ hne]

/-- Writing a valid reference stores the new content there. -/
theorem readArr_write_self (h : Heap α) (r : ℕ) (v : List α) (hr : r < h.length) :
    readArr (writeArr h r v) r = v := by
  unfold readArr writeArr
  rw [List.get?_set_eq, List.get?_eq_get hr]
  rfl

/-- A push leaves the heap size unchanged. -/
theorem length_pushArr (h : Heap α) (r : ℕ) (x : α) :
    (pushArr h r x).length = h.length :=
  List.length_set h r _

/-- A push onto one array leaves every other array unchanged. -/
theorem readArr_push_ne (h : Heap α) (r q : ℕ) (x : α) (hne : r ≠ q) :
    readArr (pushArr h r x) q = readArr h q :=
  readArr_write_ne h r q _ hne

/-- A push onto a valid array appends to its content. -/
theorem readArr_push_self (h : Heap α) (r : ℕ) (x : α) (hr : r < h.length) :
    readArr (pushArr h r x) r = readArr h r ++ [x] :=
  readArr_write_self h r _ hr

/-- One `vstStep` keeps the heap size. -/
theorem vstStep_length (nodeIds : List String) (errRef : ℕ) (hh : Heap String)
    (e : Edge) : (vstStep nodeIds errRef hh e).length = hh.length := by
  unfold vstStep
  by_cases hs : e.source_id ∈ nodeIds <;> by_cases ht : e.target_id ∈ nodeIds <;>
    simp [hs, ht, length_pushArr]

/-- One `vstStep` writes only the `errors` array. -/
theorem vstStep_read_ne (nodeIds : List String) (errRef : ℕ) (hh : Heap String)
    (e : Edge) (q : ℕ) (hq : q ≠ errRef) :
    readArr (vstStep nodeIds errRef hh e) q = readArr hh q := by
  unfold vstStep
  by_cases hs : e.source_id ∈ nodeIds <;> by_cases ht : e.target_id ∈ nodeIds <;>
    simp [hs, ht, readArr_push_ne _ _ _ _ (Ne.symm hq)]

/-- One `vstStep` appends exactly the edge's reference errors. -/
theorem vstStep_read_errRef (nodeIds : List String) (errRef : ℕ) (hh : Heap String)
    (e : Edge) (hr : errRef < hh.length) :
    readArr (vstStep nodeIds errRef hh e) errRef
      = readArr hh errRef ++ edgeRefErrs nodeIds e := by
  unfold vstStep edgeRefErrs
  by_cases hs : e.source_id ∈ nodeIds <;> by_cases ht : e.target_id ∈ nodeIds
  · simp [hs, ht]
  · simp [hs, ht, readArr_push_self _ _ _ hr]
  · simp [hs, ht, readArr_push_self _ _ _ hr]
  · have h1 : errRef < (pushArr hh errRef (srcErr e.source_id)).length := by
      rw [length_pushArr]; exact hr
    simp [hs, ht, readArr_push_self _ _ _ hr, readArr_push_self _ _ _ h1]

/-- Folding `vstStep` over the edges keeps the size, leaves every array but
`errors` unchanged, and appends exactly the reference errors to `errors`. -/
theorem vstFold_spec (nodeIds : List String) (errRef : ℕ) :
    ∀ (es : List Edge) (hh : Heap String), errRef < hh.length →
      ((es.foldl (vstStep nodeIds errRef) hh).length = hh.length)
      ∧ (∀ q, q ≠ errRef → readArr (es.foldl (vstStep nodeIds errRef) hh) q = readArr hh q)
      ∧ readArr (es.foldl (vstStep nodeIds errRef) hh) errRef
          = readArr hh errRef ++ es.flatMap (edgeRefErrs nodeIds)
  | [], hh, _ => by simp
  | e :: es, hh, hr => by
    have hr' : errRef < (vstStep nodeIds errRef hh e).length := by
      rw [vstStep_length]; exact hr
    have ih := vstFold_spec nodeIds errRef es (vstStep nodeIds errRef hh e) hr'
    refine ⟨?_, ?_, ?_⟩
    · rw [List.foldl_cons, ih.1, vstStep_length]
    · intro q hq
      rw [List.foldl_cons, ih.2.1 q hq, vstStep_read_ne _ _ _ _ _ hq]
    · rw [List.foldl_cons, ih.2.2, vstStep_read_errRef _ _ _ _ hr,
        List.flatMap_cons, List.append_assoc]

/-! ### C7 and the engine claims -/

/-- C7: the read-only functions never mutate their inputs: at the heap level,
`sortNodesByName` allocates a fresh array, sorts only that copy (the result
is a sorted permutation of the input, at a reference distinct from the
input's), and the input array still holds its original content afterwards;
`validateEdgeReferences` writes only its freshly allocated `errors` array â
every pre-existing array is unchanged â and that array ends up holding
exactly the pure function's error list. -/
theorem c7_read_only_functions_frame :
    (∀ (h : Heap Node) (r : ℕ), r < h.length →
      (sortNodesByNameST h r).2 ≠ r
      ∧ readArr (sortNodesByNameST h r).1 r = readArr h r
      ∧ readArr (sortNodesByNameST h r).1 (sortNodesByNameST h r).2
          = jsSortByName (readArr h r)
      ∧ List.Sorted nameLE (readArr (sortNodesByNameST h r).1 (sortNodesByNameST h r).2)
      ∧ (readArr (sortNodesByNameST h r).1 (sortNodesByNameST h r).2).Perm (readArr h r))
    ∧ (∀ (g : CausalGraph) (h : Heap String) (q : ℕ), q < h.length →
        readArr (validateEdgeReferencesST g h).1 q = readArr h q)
    ∧ (∀ (g : CausalGraph) (h : Heap String),
        readArr (validateEdgeReferencesST g h).1 (validateEdgeReferencesST g h).2
          = validateEdgeReferences g) := by
  refine ⟨?_, ?_, ?_⟩
  · intro h r hr
    have hne : Heap.size h ≠ r := Nat.ne_of_gt hr
    have hlen : Heap.size h < (h ++ [readArr h r]).length := by
      simp [Heap.size]
    have hcopy : readArr (h ++ [readArr h r]) (Heap.size h) = readArr h r :=
      readArr_append_self h _
    refine ⟨hne, ?_, ?_, ?_, ?_⟩
    · show readArr (writeArr (h ++ [readArr h r]) (Heap.size h) _) r = readArr h r
      rw [readArr_write_ne _ _ _ _ hne, readArr_append_lt _ _ _ hr]
    · show readArr (writeArr (h ++ [readArr h r]) (Heap.size h)
        (jsSortByName (readArr (h ++ [readArr h r]) (Heap.size h)))) (Heap.size h)
          = jsSortByName (readArr h r)
      rw [readArr_write_self _ _ _ hlen, hcopy]
    · show List.Sorted nameLE (readArr (writeArr (h ++ [readArr h r]) (Heap.size h)
        (jsSortByName (readArr (h ++ [readArr h r]) (Heap.size h)))) (Heap.size h))
      rw [readArr_write_self _ _ _ hlen, hcopy]
      exact List.sorted_insertionSort nameLE (readArr h r)
    · show (readArr (writeArr (h ++ [readArr h r]) (Heap.size h)
        (jsSortByName (readArr (h ++ [readArr h r]) (Heap.size h)))) (Heap.size h)).Perm
          (readArr h r)
      rw [readArr_write_self _ _ _ hlen, hcopy]
      exact List.perm_insertionSort nameLE (readArr h r)
  · intro g h q hq
    have hr : Heap.size h < (h ++ [([] : List String)]).length := by simp [Heap.size]
    have hspec := vstFold_spec (g.nodes.map (·.id)) (Heap.size h) g.edges
      (h ++ [[]]) hr
    show readArr (g.edges.foldl (vstStep (g.nodes.map (·.id)) (Heap.size h)) (h ++ [[]])) q
      = readArr h q
    rw [hspec.2.1 q (Nat.ne_of_lt hq), readArr_append_lt _ _ _ hq]
  · intro g h
    have hr : Heap.size h < (h ++ [([] : List String)]).length := by simp [Heap.size]
    have hspec := vstFold_spec (g.nodes.map (·.id)) (Heap.size h) g.edges
      (h ++ [[]]) hr
    show readArr (g.edges.foldl (vstStep (g.nodes.map (·.id)) (Heap.size h)) (h ++ [[]]))
      (Heap.size h) = validateEdgeReferences g
    rw [hspec.2.2]
    simp only [Heap.size]
    rw [readArr_append_self h ([] : List String)]
    simp [validateEdgeReferences]

/-- C7 witness: the frame statement applied to concrete one-array heaps. -/
theorem c7_witness :
    ((0 : ℕ) < ([[(⟨"n1", "Bob", NodeType.continuous, Value.num (JSNum.fin (mkRat 1 1)), none⟩ :
        Node), ⟨"n2", "Alice", NodeType.continuous, Value.num (JSNum.fin (mkRat 2 1)), none⟩]] :
        Heap Node).length)
    ∧ readArr (sortNodesByNameST [[(⟨"n1", "Bob", NodeType.continuous,
        Value.num (JSNum.fin (mkRat 1 1)), none⟩ : Node),
        ⟨"n2", "Alice", NodeType.continuous, Value.num (JSNum.fin (mkRat 2 1)), none⟩]] 0).1 0
      = readArr [[(⟨"n1", "Bob", NodeType.continuous, Value.num (JSNum.fin (mkRat 1 1)), none⟩ :
        Node), ⟨"n2", "Alice", NodeType.continuous, Value.num (JSNum.fin (mkRat 2 1)), none⟩]] 0
    ∧ readArr (validateEdgeReferencesST gMissing [["old"]]).1 0 = readArr [["old"]] 0
    ∧ readArr (validateEdgeReferencesST gMissing [["old"]]).1
        (validateEdgeReferencesST gMissing [["old"]]).2 = validateEdgeReferences gMissing :=
  ⟨by decide,
   (c7_read_only_functions_frame.1 _ 0 (by decide)).2.1,
   c7_read_only_functions_frame.2.1 gMissing [["old"]] 0 (by decide),
   c7_read_only_functions_frame.2.2 gMissing [["old"]]⟩

/-- Every non-finite delta is flagged by `flagDiverged`. -/
theorem flagDiverged_mem (deltas : DeltaMap) (old : List String) (p : String × JSNum)
    (hp : p ∈ deltas) (hnf : nonFinite p.2 = true) : p.1 ∈ flagDiverged deltas old := by
  unfold flagDiverged
  by_cases ho : p.1 ∈ old
  · exact List.mem_append.2 (Or.inl ho)
  · refine List.mem_append.2 (Or.inr (List.mem_filter.2 ⟨?_, by simpa using ho⟩))
    exact List.mem_map.2 ⟨p, List.mem_filter.2 ⟨hp, hnf⟩, rfl⟩

/-- After a step, every non-finite delta is flagged. -/
theorem stepState_flags (g : CausalGraph) (ivIds : List String)
    (parents : List (String × List (String × ℚ))) (numericIds : List String)
    (st : SimState) :
    ∀ p ∈ (stepState g ivIds parents numericIds st).deltas, nonFinite p.2 = true →
      p.1 ∈ (stepState g ivIds parents numericIds st).diverged := by
  intro p hp hnf
  exact flagDiverged_mem _ _ p hp hnf

/-- The relaxation loop performs at most `fuel` sweeps. -/
theorem simLoop_iterations_le (g : CausalGraph) (ivIds : List String)
    (parents : List (String × List (String × ℚ))) (numericIds : List String) :
    ∀ (fuel : ℕ) (st : SimState),
      (simLoop g ivIds parents numericIds fuel st).2 ≤ fuel
  | 0, st => Nat.le_refl 0
  | fuel + 1, st => by
    simp only [simLoop]
    split
    · exact Nat.succ_le_succ (Nat.zero_le fuel)
    · exact Nat.succ_le_succ
        (simLoop_iterations_le g ivIds parents numericIds fuel _)

/-- The flag soundness invariant survives the whole relaxation loop. -/
theorem simLoop_flags (g : CausalGraph) (ivIds : List String)
    (parents : List (String × List (String × ℚ))) (numericIds : List String) :
    ∀ (fuel : ℕ) (st : SimState),
      (∀ p ∈ st.deltas, nonFinite p.2 = true → p.1 ∈ st.diverged) →
      ∀ p ∈ (simLoop g ivIds parents numericIds fuel st).1.deltas,
        nonFinite p.2 = true →
        p.1 ∈ (simLoop g ivIds parents numericIds fuel st).1.diverged
  | 0, st, hst => hst
  | fuel + 1, st, hst => by
    simp only [simLoop]
    split
    · exact stepState_flags g ivIds parents numericIds st
    · exact simLoop_flags g ivIds parents numericIds fuel _
        (stepState_flags g ivIds parents numericIds st)

/-- C1: for every graph with a divergent cycle (weight product of magnitude
at least 1) and every intervention set, the modelled engine still returns one
result per node (in node order), halts within the hard iteration cap of 1000
sweeps, and every node whose delta is non-finite (infinity or `NaN`) is
flagged in the diverged set rather than leaked silently. -/
theorem c1_cycle_termination_and_flagging (g : CausalGraph) (ivs : List Intervention)
    (_hcyc : HasDivergentCycle g) :
    (simulate g ivs).results.length = g.nodes.length
    ∧ (simulate g ivs).results.map (·.node_id) = g.nodes.map (·.id)
    ∧ (simulate g ivs).iterations ≤ maxIterations
    ∧ ∀ p ∈ (simulate g ivs).finalDeltas, nonFinite p.2 = true →
        p.1 ∈ (simulate g ivs).diverged := by
  refine ⟨?_, ?_, ?_, ?_⟩
  · simp only [simulate]
    exact List.length_map _ _
  · simp only [simulate]
    rw [List.map_map]
    refine List.map_congr_left ?_
    intro n _
    cases hb : n.base_value <;> simp [Function.comp, hb]
  · simp only [simulate]
    exact simLoop_iterations_le g _ _ _ maxIterations _
  · simp only [simulate]
    intro p hp hnf
    refine simLoop_flags g _ _ _ maxIterations _ ?_ p hp hnf
    intro q hq hqnf
    exact flagDiverged_mem _ _ q hq hqnf

/-- C1 witness: the theorem applied to the concrete 2-node divergent cycle
`A → B → A` with weight product 2 and an intervention on `A`. -/
theorem c1_witness :
    HasDivergentCycle gCyc
    ∧ ((simulate gCyc ivsCyc).results.length = gCyc.nodes.length
      ∧ (simulate gCyc ivsCyc).results.map (·.node_id) = gCyc.nodes.map (·.id)
      ∧ (simulate gCyc ivsCyc).iterations ≤ maxIterations
      ∧ ∀ p ∈ (simulate gCyc ivsCyc).finalDeltas, nonFinite p.2 = true →
          p.1 ∈ (simulate gCyc ivsCyc).diverged) :=
  have h : HasDivergentCycle gCyc := ⟨[0, 1], by decide, by decide⟩
  ⟨h, c1_cycle_termination_and_flagging gCyc ivsCyc h⟩

end RootcauseGraph
